import Mathlib

/-!
Shallow embedding of the PDF-collection assembly pipeline of
`src/PDF_Augment.py` and `src/PDFProcessor.py`.

Pure text measurement (reportlab's `stringWidth`) and the page-width limit
are external capabilities of the rendering library; they are passed in as a
parameter `w : String → Nat` together with a limit, so every theorem is
quantified over the measuring capability.  Pages of a source document are
modelled by the text extracted from them; a document whose reading raises an
exception is modelled by `none`.
-/

/-- Accumulating loop behind `splitWs`: `acc` holds the reversed characters
of the word being read. -/
def splitWsGo : List Char → List Char → List String
  | [], acc => if acc.isEmpty then [] else [String.mk acc.reverse]
  | c :: rest, acc =>
    if Char.isWhitespace c then
      if acc.isEmpty then splitWsGo rest []
      else String.mk acc.reverse :: splitWsGo rest []
    else splitWsGo rest (c :: acc)

/-- Whitespace splitting as Python's `str.split()` with no argument:
split on whitespace runs, dropping empty pieces. -/
def splitWs (s : String) : List String :=
  splitWsGo s.data []

/-- Python's `' '.join(current_line)`. -/
def joinWords (l : List String) : String :=
  String.intercalate " " l

/-- Python's substring test `needle in hay` on character lists. -/
def containsSub (needle : List Char) : List Char → Bool
  | [] => needle.isEmpty
  | c :: rest => needle.isPrefixOf (c :: rest) || containsSub needle rest

/-- Python's `str.lower()` for the ASCII range (the category keywords are
ASCII): lowercase every character. -/
def lowerStr (s : String) : String :=
  String.mk (s.data.map Char.toLower)

/-- Python's `str.endswith(post)`. -/
def endsWithStr (s post : String) : Bool :=
  post.data.isSuffixOf s.data

/-- Python's `text.split(sep)` for a one-character separator `sep`: split at
every occurrence, keeping empty pieces (`"".split('\n') == [""]`). -/
def splitOnChar (sep : Char) : List Char → List (List Char)
  | [] => [[]]
  | c :: rest =>
    let r := splitOnChar sep rest
    if c = sep then [] :: r
    else
      match r with
      | [] => [[c]]
      | h :: t => (c :: h) :: t

/-- Python's `str.strip()`: drop leading and trailing whitespace. -/
def trimChars (l : List Char) : List Char :=
  ((l.dropWhile Char.isWhitespace).reverse.dropWhile Char.isWhitespace).reverse

/-- Python's string comparison `a <= b`: lexicographic by code point. -/
def charListLe : List Char → List Char → Bool
  | [], _ => true
  | _ :: _, [] => false
  | a :: as, b :: bs =>
    if a.toNat < b.toNat then true
    else if b.toNat < a.toNat then false
    else charListLe as bs

/-- Python's `a <= b` on strings. -/
def pyStrLe (a b : String) : Bool :=
  charListLe a.data b.data

/-- Value of the decimal digit string, as Python's `int` on a digit string
(`int "04" = 4`). -/
def digitsVal (l : List Char) : Nat :=
  l.foldl (fun acc c => acc * 10 + (c.toNat - '0'.toNat)) 0

/-- The window of six characters starting here, when it exists and is all
digits (one candidate position of the regex `\d{6}`). -/
def sixDigitsAt (l : List Char) : Option (List Char) :=
  let window := l.take 6
  if window.length = 6 ∧ window.all Char.isDigit then some window else none

/-- Leftmost match of the regex search `re.search(r'(\d{6})', filename)`:
the first position where six consecutive digits start. -/
def findSixDigits : List Char → Option (List Char)
  | [] => none
  | c :: rest =>
    match sixDigitsAt (c :: rest) with
    | some window => some window
    | none => findSixDigits rest

namespace PDFAugment

/-- The header string `f"LPF-{skill_type}-{year}-{title}"` of
`add_header_footer` in `src/PDF_Augment.py`. -/
def mkHeaderText (skill year title : String) : String :=
  "LPF-" ++ skill ++ "-" ++ year ++ "-" ++ title

/-- The header text drawn by `add_header_footer` (`src/PDF_Augment.py`,
lines 16-24): build the header; if its measured width exceeds the limit
(`A4[0] - 100` in the source), replace the title by its 50-character
prefix plus `"..."` when the title is longer than 50 characters, and
rebuild; then draw.  `w` is the `stringWidth` capability and `limit` the
page-width threshold. -/
def headerDrawn (w : String → Nat) (limit : Nat) (skill year title : String) : String :=
  let headerText := mkHeaderText skill year title
  if w headerText > limit then
    let maxTitleLength := 50
    let title2 := if title.length > maxTitleLength then title.take maxTitleLength ++ "..." else title
    mkHeaderText skill year title2
  else headerText

/-- The greedy word-wrap loop of `create_toc_page` (`src/PDF_Augment.py`,
lines 101-113), parametrised by the already-consumed `current` line.  A
produced line is kept as its word list; the string actually drawn for a
line `l` is `joinWords l`, and the width test of the source measures
`' '.join(current_line + [word])`. -/
def wrapCore (w : String → Nat) (cw : Nat) : List String → List String → List (List String)
  | [], current => if current.isEmpty then [] else [current]
  | word :: rest, current =>
    let testLine := joinWords (current ++ [word])
    if w testLine ≤ cw then
      wrapCore w cw rest (current ++ [word])
    else
      if current.isEmpty then
        [word] :: wrapCore w cw rest []
      else
        current :: wrapCore w cw rest [word]

/-- Word-wrapping of one TOC entry string: `words = entry.split()` then the
greedy accumulation loop. -/
def wrapWords (w : String → Nat) (cw : Nat) (entry : String) : List (List String) :=
  wrapCore w cw (splitWs entry) []

/-- The display line of TOC entry `i` (0-based index in `file_list`):
`f"{current_index + 1}. {title} - {year}"`. -/
def tocEntry (i : Nat) (title year : String) : String :=
  toString (i + 1) ++ ". " ++ title ++ " - " ++ year

/-- `needed_height = len(lines) * line_height + 5` with `line_height = 20`
for entry `i` of `fl`. -/
def entryNeeded (w : String → Nat) (cw : Nat) (i : Nat) (title year : String) : Nat :=
  (wrapWords w cw (tocEntry i title year)).length * 20 + 5

/-- The inner `while` loop of `add_toc_page` (`src/PDF_Augment.py`, lines
92-130): starting from entry `i` with vertical cursor `y`, return the index
at which this TOC page stops.  A page break happens when
`y - needed_height < 50` and the page already holds an entry
(`current_index > start_index`); otherwise the entry is drawn (forced even
when it does not fit, if the page is still empty) and `y` decreases by
`needed_height`. -/
def fillPageGo (w : String → Nat) (cw : Nat) (fl : List (String × String)) :
    Nat → Int → Nat → Nat → Nat
  | 0, _, i, _ => i
  | fuel + 1, y, i, start =>
    if h : i < fl.length then
      let e := fl.get ⟨i, h⟩
      let needed := entryNeeded w cw i e.1 e.2
      if y - (needed : Int) < 50 ∧ i > start then i
      else fillPageGo w cw fl fuel (y - (needed : Int)) (i + 1) start
    else i

/-- Entry to `fillPageGo` with enough fuel: the loop increments `i` at every
step, so it runs at most `fl.length - i` times; with that fuel the
exhaustion case coincides with the loop's own exit (`i = fl.length`). -/
def fillPage (w : String → Nat) (cw : Nat) (fl : List (String × String))
    (y : Int) (i start : Nat) : Nat :=
  fillPageGo w cw fl (fl.length - i) y i start

/-- The outer `while` loop of `create_toc_page` (`src/PDF_Augment.py`,
lines 133-140): repeatedly fill a page starting at `y = 700`, collecting
the half-open index segment `(start, stop)` of entries drawn on each page.
The fuel argument bounds the number of pages; since every page consumes at
least one entry, fuel `fl.length` is never exhausted (proved below). -/
def tocBreaksGo (w : String → Nat) (cw : Nat) (fl : List (String × String)) :
    Nat → Nat → List (Nat × Nat)
  | 0, _ => []
  | fuel + 1, i =>
    if i < fl.length then
      let j := fillPage w cw fl 700 i i
      (i, j) :: tocBreaksGo w cw fl fuel j
    else []

/-- The per-page entry segments of `create_toc_page` on `fl`. -/
def tocBreaks (w : String → Nat) (cw : Nat) (fl : List (String × String)) : List (Nat × Nat) :=
  tocBreaksGo w cw fl fl.length 0

/-- Page-number stamps carried by the physical pages of the PDF returned by
`create_toc_page(fl, skill, start_page)`: with a non-empty entry list the
canvas holds one page per segment of `tocBreaks`, stamped `start_page`,
`start_page + 1`, ... (the nonlocal `current_page` is incremented once per
page break); with an empty entry list `add_toc_page` is never called, yet
saving the canvas still emits one blank page, carrying no stamp (`none`). -/
def tocStampList (w : String → Nat) (cw : Nat) (fl : List (String × String))
    (startPage : Nat) : List (Option Nat) :=
  if fl.isEmpty then [none]
  else (List.range (tocBreaks w cw fl).length).map (fun k => some (startPage + k))

/-- Title extraction (`extract_title_from_pdf`, `src/PDF_Augment.py` lines
146-159).  The argument is `none` when `PdfReader`/`extract_text` raises,
otherwise the extracted text of each page.  The source splits the first
page's text on newlines and returns the first piece stripped; `"Untitled"`
is returned on an exception or when there is no page. -/
def extract_title_from_pdf (doc : Option (List String)) : String :=
  match doc with
  | none => "Untitled"
  | some pages =>
    match pages with
    | [] => "Untitled"
    | firstPage :: _ =>
      match splitOnChar '\n' firstPage.data with
      | [] => "Untitled"
      | line :: _ => String.mk (trimChars line)

/-- `get_year_level` of `src/PDF_Augment.py` (lines 161-167): six-digit
search in the filename, first two digits parsed; note the fallback for a
filename with no six-digit run is `"General Year"` in this file. -/
def get_year_level (filename : String) : String :=
  match findSixDigits filename.data with
  | some digits =>
    let yearNum := digitsVal (digits.take 2)
    if 1 ≤ yearNum ∧ yearNum ≤ 7 then "Year " ++ toString yearNum else "Unknown Year"
  | none => "General Year"

/-- One scanned file record `(full_path, title, year_level)` as appended to
`reading_files` / `writing_files`. -/
abbrev SE := String × String × String

/-- The inner loop of the scan (`src/PDF_Augment.py`, lines 178-186) over
the PDF files of one directory `root`: each file is appended to the reading
accumulator when `'reading' in root.lower()`, else to the writing
accumulator when `'writing' in root.lower()`, else to neither.  `et` is the
title-extraction result per full path. -/
def scanFolder (et : String → String) (root : String) :
    List String → List SE × List SE → List SE × List SE
  | [], acc => acc
  | f :: fs, (rs, ws) =>
    let fullPath := root ++ "/" ++ f
    let entry : SE := (fullPath, et fullPath, get_year_level f)
    let acc2 :=
      if containsSub "reading".data (lowerStr root).data then (rs ++ [entry], ws)
      else if containsSub "writing".data (lowerStr root).data then (rs, ws ++ [entry])
      else (rs, ws)
    scanFolder et root fs acc2

/-- The outer `os.walk` loop of the scan (`src/PDF_Augment.py`, lines
176-186): `walk` is the traversal as a list of `(root, files)` pairs; each
directory's files are first filtered to names ending in `.pdf`
(case-insensitively). -/
def scanGo (et : String → String) :
    List (String × List String) → List SE × List SE → List SE × List SE
  | [], acc => acc
  | (root, files) :: rest, acc =>
    let pdfFiles := files.filter (fun f => endsWithStr (lowerStr f) ".pdf")
    scanGo et rest (scanFolder et root pdfFiles acc)

/-- The complete scan phase of `merge_pdfs_by_type`: returns the
`reading_files` and `writing_files` lists. -/
def scanPdfs (et : String → String) (walk : List (String × List String)) :
    List SE × List SE :=
  scanGo et walk ([], [])

/-- A document handed to the merge loop: its path, extracted title, parsed
year level, and its page count — `none` when `PdfReader(file_path)` raises. -/
structure Doc where
  path : String
  title : String
  year : String
  pages : Option Nat
deriving DecidableEq, Repr

/-- `sorted(files, key=lambda x: x[2])` (`src/PDF_Augment.py`, line 212):
a stable sort on the year-level string under Python's lexicographic
string comparison.  Python's sort is stable, and for a total key preorder
every stable sort returns the same permutation, so it is modelled by a
stable insertion sort on the key `x[2]`. -/
def sortedDocs (docs : List Doc) : List Doc :=
  List.insertionSort (fun a b => pyStrLe a.year b.year = true) docs

/-- The content-merging loop (`src/PDF_Augment.py`, lines 214-239): thread
the running `current_page` through the sorted documents, stamping each
physical page with the counter value and incrementing once per page.  There
is no exception handler around `PdfReader(file_path)`: a document whose
pages fail to load propagates its exception out of the whole merge, which
the model reflects by an `Except.error` carrying the failing path. -/
def stampContentE : Nat → List Doc → Except String (List Nat)
  | _, [] => Except.ok []
  | cp, d :: ds =>
    match d.pages with
    | none => Except.error d.path
    | some n =>
      match stampContentE (cp + n) ds with
      | Except.error e => Except.error e
      | Except.ok rest => Except.ok ((List.range n).map (fun k => cp + k) ++ rest)

/-- Page-number stamps on the physical pages of one category's merged
collection (`merge_pdfs_by_type`, `src/PDF_Augment.py` lines 192-239):
`current_page` starts at 1; the intro page is stamped with the literal 1
(`create_intro_page` passes `1`); `current_page` is incremented once after
the intro and once after appending the whole TOC (regardless of how many
pages the TOC produced), so the TOC is created with `start_page = 2` and
the content loop starts stamping at 3.  The TOC is built from the scan
order while the content is merged in sorted order. -/
def mergeStamps (w : String → Nat) (cw : Nat) (docs : List Doc) :
    Except String (List (Option Nat)) :=
  let tocList := docs.map (fun d => (d.title, d.year))
  match stampContentE 3 (sortedDocs docs) with
  | Except.error e => Except.error e
  | Except.ok contentStamps =>
    Except.ok (some 1 :: (tocStampList w cw tocList 2 ++ contentStamps.map some))

end PDFAugment

namespace PDFProcessor

/-- `get_year_level` of `src/PDFProcessor.py` (lines 35-41): identical to
the PDF_Augment version except that a filename with no six-digit run
yields `"Unknown Year"`. -/
def get_year_level (filename : String) : String :=
  match findSixDigits filename.data with
  | some digits =>
    let yearNum := digitsVal (digits.take 2)
    if 1 ≤ yearNum ∧ yearNum ≤ 7 then "Year " ++ toString yearNum else "Unknown Year"
  | none => "Unknown Year"

/-- `get_skill_type` of `src/PDFProcessor.py` (lines 43-50). -/
def get_skill_type (folderPath : String) : String :=
  let p := lowerStr folderPath
  if containsSub "reading".data p.data then "Reading"
  else if containsSub "writing".data p.data then "Writing"
  else "Unknown Skill"

end PDFProcessor

/-- Spec-side predicate: the character list contains a run of six
consecutive digits ("a six-digit run" in the specification's words) —
some position carries a six-digit window. -/
def hasSixDigitRun : List Char → Bool
  | [] => false
  | c :: rest => (sixDigitsAt (c :: rest)).isSome || hasSixDigitRun rest

/-- Whether a merge step succeeded (the run reached the output) or raised. -/
def isOkE {α : Type} (e : Except String α) : Bool :=
  match e with
  | Except.ok _ => true
  | Except.error _ => false

/-- The descriptor built by the scan for one eligible file. -/
def mkSE (et : String → String) (root f : String) : PDFAugment.SE :=
  (root ++ "/" ++ f, et (root ++ "/" ++ f), PDFAugment.get_year_level f)

/-- The descriptors of the eligible (`.pdf`-suffixed) files of one walked
directory. -/
def eligibleEntries (et : String → String) (root : String) (files : List String) :
    List PDFAugment.SE :=
  (files.filter (fun f => endsWithStr (lowerStr f) ".pdf")).map (mkSE et root)

/-- Amended-claim description of where a walked directory's eligible files
land: in the Reading results when the lower-cased directory path contains
`"reading"`. -/
def readingOf (et : String → String) (p : String × List String) : List PDFAugment.SE :=
  if containsSub "reading".data (lowerStr p.1).data then eligibleEntries et p.1 p.2 else []

/-- Amended-claim description of the Writing results: a directory whose
lower-cased path contains `"writing"` but not `"reading"`. -/
def writingOf (et : String → String) (p : String × List String) : List PDFAugment.SE :=
  if containsSub "reading".data (lowerStr p.1).data then []
  else if containsSub "writing".data (lowerStr p.1).data then eligibleEntries et p.1 p.2
  else []

namespace PDFAugment

theorem wrapCore_flatten (w : String → Nat) (cw : Nat) :
    ∀ (words current : List String),
      (wrapCore w cw words current).flatten = current ++ words := by
  intro words
  induction words with
  | nil =>
    intro current
    cases current <;> simp [wrapCore]
  | cons word rest ih =>
    intro current
    simp only [wrapCore]
    split
    · rw [ih]
      simp


    · split
      · next hemp =>
        rw [List.flatten_cons, ih]
        rw [List.isEmpty_iff] at hemp
        subst hemp
        simp
      · rw [List.flatten_cons, ih]
        simp

theorem wrapCore_width (w : String → Nat) (cw : Nat) :
    ∀ (words current : List String),
      (current = [] ∨ w (joinWords current) ≤ cw ∨ current.length = 1) →
      ∀ l ∈ wrapCore w cw words current, w (joinWords l) ≤ cw ∨ l.length = 1 := by
  intro words
  induction words with
  | nil =>
    intro current hcur l hl
    rw [wrapCore] at hl
    split at hl
    · simp at hl
    · next hemp =>
      rw [List.mem_singleton] at hl
      subst hl
      rcases hcur with rfl | h | h
      · simp at hemp
      · exact Or.inl h
      · exact Or.inr h
  | cons word rest ih =>
    intro current hcur l hl
    simp only [wrapCore] at hl
    split at hl
    · next hfit =>
      exact ih (current ++ [word]) (Or.inr (Or.inl hfit)) l hl
    · split at hl
      · rcases List.mem_cons.mp hl with rfl | hl2
        · exact Or.inr rfl
        · exact ih [] (Or.inl rfl) l hl2
      · next hemp =>
        rcases List.mem_cons.mp hl with rfl | hl2
        · rcases hcur with rfl | h | h
          · simp at hemp
          · exact Or.inl h
          · exact Or.inr h
        · exact ih [word] (Or.inr (Or.inr rfl)) l hl2

/-- C8: every line produced by the TOC word-wrap either measures within the
content width or consists of a single word (the only allowed overflow), and
the concatenation of all wrapped lines' words is exactly the entry's word
list — no word is dropped or duplicated. -/
theorem C8_wrap_lines_fit_and_lossless (w : String → Nat) (cw : Nat) (entry : String) :
    (∀ l ∈ wrapWords w cw entry, w (joinWords l) ≤ cw ∨ l.length = 1) ∧
    (wrapWords w cw entry).flatten = splitWs entry := by
  constructor
  · exact wrapCore_width w cw (splitWs entry) [] (Or.inl rfl)
  · simpa using wrapCore_flatten w cw (splitWs entry) []

theorem fillPageGo_ge (w : String → Nat) (cw : Nat) (fl : List (String × String)) :
    ∀ (fuel : Nat) (y : Int) (i start : Nat), i ≤ fillPageGo w cw fl fuel y i start := by
  intro fuel
  induction fuel with
  | zero => intro y i start; exact Nat.le_refl i
  | succ fuel ih =>
    intro y i start
    rw [fillPageGo]
    split
    · dsimp only
      split
      · exact Nat.le_refl i
      · exact Nat.le_trans (Nat.le_succ i) (ih _ (i + 1) start)
    · exact Nat.le_refl i

theorem fillPageGo_le (w : String → Nat) (cw : Nat) (fl : List (String × String)) :
    ∀ (fuel : Nat) (y : Int) (i start : Nat), i ≤ fl.length →
      fillPageGo w cw fl fuel y i start ≤ fl.length := by
  intro fuel
  induction fuel with
  | zero => intro y i start hi; exact hi
  | succ fuel ih =>
    intro y i start hi
    rw [fillPageGo]
    split
    · dsimp only
      split
      · exact hi
      · exact ih _ (i + 1) start (by omega)
    · exact hi

theorem fillPage_ge (w : String → Nat) (cw : Nat) (fl : List (String × String))
    (y : Int) (i start : Nat) : i ≤ fillPage w cw fl y i start :=
  fillPageGo_ge w cw fl _ y i start

theorem fillPage_le (w : String → Nat) (cw : Nat) (fl : List (String × String))
    (y : Int) (i start : Nat) (hi : i ≤ fl.length) : fillPage w cw fl y i start ≤ fl.length :=
  fillPageGo_le w cw fl _ y i start hi

theorem fillPage_start_lt (w : String → Nat) (cw : Nat) (fl : List (String × String))
    (y : Int) (i : Nat) (h : i < fl.length) : i < fillPage w cw fl y i i := by
  rw [fillPage]
  obtain ⟨fuel, hfuel⟩ : ∃ fuel, fl.length - i = fuel + 1 :=
    ⟨fl.length - i - 1, by omega⟩
  rw [hfuel, fillPageGo]
  rw [dif_pos h]
  dsimp only
  have hfalse : ¬(y - (entryNeeded w cw i (fl.get ⟨i, h⟩).1 (fl.get ⟨i, h⟩).2 : Int) < 50 ∧ i > i) := by
    omega
  rw [if_neg hfalse]
  exact Nat.lt_of_lt_of_le (Nat.lt_succ_self i) (fillPageGo_ge w cw fl fuel _ (i + 1) i)

theorem tocBreaksGo_spec (w : String → Nat) (cw : Nat) (fl : List (String × String)) :
    ∀ (fuel i : Nat), fl.length ≤ fuel + i →
      (∀ p ∈ tocBreaksGo w cw fl fuel i, i ≤ p.1 ∧ p.1 < p.2 ∧ p.2 ≤ fl.length) ∧
      (tocBreaksGo w cw fl fuel i).flatMap (fun p => List.range' p.1 (p.2 - p.1))
        = List.range' i (fl.length - i) := by
  intro fuel
  induction fuel with
  | zero =>
    intro i hle
    constructor
    · intro p hp
      simp [tocBreaksGo] at hp
    · have hz : fl.length - i = 0 := by omega
      simp [tocBreaksGo, hz]
  | succ fuel ih =>
    intro i hle
    simp only [tocBreaksGo]
    split
    · next h =>
      have hij : i < fillPage w cw fl 700 i i := fillPage_start_lt w cw fl 700 i h
      have hjle : fillPage w cw fl 700 i i ≤ fl.length :=
        fillPage_le w cw fl 700 i i (Nat.le_of_lt h)
      obtain ⟨ihmem, ihbind⟩ := ih (fillPage w cw fl 700 i i) (by omega)
      constructor
      · intro p hp
        rcases List.mem_cons.mp hp with rfl | hp2
        · exact ⟨Nat.le_refl i, hij, hjle⟩
        · have h3 := ihmem p hp2
          exact ⟨by omega, h3.2.1, h3.2.2⟩
      · rw [List.flatMap_cons, ihbind]
        have happ := List.range'_append i (fillPage w cw fl 700 i i - i)
          (fl.length - fillPage w cw fl 700 i i) 1
        have h1 : i + 1 * (fillPage w cw fl 700 i i - i) = fillPage w cw fl 700 i i := by omega
        have h2 : fl.length - fillPage w cw fl 700 i i + (fillPage w cw fl 700 i i - i)
            = fl.length - i := by omega
        rw [h1, h2] at happ
        exact happ
    · next h =>
      have hz : fl.length - i = 0 := by omega
      simp [hz]

/-- C9: the TOC layout of `create_toc_page` terminates with every emitted
page carrying at least one entry (so no page is empty unless the entry list
is), the per-page index segments partition `0, ..., len - 1` — every entry
is placed exactly once, never lost and never drawn twice after a page-break
retry — and consequently the concatenation of the wrapped lines drawn
across all pages equals the concatenation of every entry's wrapped lines
taken once, in order. -/
theorem C9_toc_layout_partition (w : String → Nat) (cw : Nat) (fl : List (String × String)) :
    (∀ p ∈ tocBreaks w cw fl, p.1 < p.2) ∧
    (tocBreaks w cw fl).flatMap (fun p => List.range' p.1 (p.2 - p.1)) = List.range fl.length ∧
    (tocBreaks w cw fl).flatMap
        (fun p => (List.range' p.1 (p.2 - p.1)).flatMap
          (fun i => wrapWords w cw (tocEntry i (fl.getD i ("", "")).1 (fl.getD i ("", "")).2)))
      = (List.range fl.length).flatMap
          (fun i => wrapWords w cw (tocEntry i (fl.getD i ("", "")).1 (fl.getD i ("", "")).2)) := by
  obtain ⟨hmem, hbind⟩ := tocBreaksGo_spec w cw fl fl.length 0 (by omega)
  have hcover : (tocBreaks w cw fl).flatMap (fun p => List.range' p.1 (p.2 - p.1))
      = List.range fl.length := by
    rw [tocBreaks, hbind, Nat.sub_zero, List.range_eq_range']
  refine ⟨fun p hp => (hmem p hp).2.1, hcover, ?_⟩
  rw [← List.flatMap_assoc, hcover]

theorem scanFolder_reading (et : String → String) (root : String)
    (hr : containsSub "reading".data (lowerStr root).data = true) :
    ∀ (files : List String) (rs ws : List SE),
      scanFolder et root files (rs, ws) = (rs ++ files.map (mkSE et root), ws) := by
  intro files
  induction files with
  | nil => intro rs ws; simp [scanFolder]
  | cons f fs ih =>
    intro rs ws
    simp only [scanFolder]
    rw [if_pos hr, ih]
    simp [mkSE]

theorem scanFolder_writing (et : String → String) (root : String)
    (hr : containsSub "reading".data (lowerStr root).data = false)
    (hw : containsSub "writing".data (lowerStr root).data = true) :
    ∀ (files : List String) (rs ws : List SE),
      scanFolder et root files (rs, ws) = (rs, ws ++ files.map (mkSE et root)) := by
  intro files
  induction files with
  | nil => intro rs ws; simp [scanFolder]
  | cons f fs ih =>
    intro rs ws
    simp only [scanFolder]
    rw [if_neg (by simp [hr]), if_pos hw, ih]
    simp [mkSE]

theorem scanFolder_skip (et : String → String) (root : String)
    (hr : containsSub "reading".data (lowerStr root).data = false)
    (hw : containsSub "writing".data (lowerStr root).data = false) :
    ∀ (files : List String) (rs ws : List SE),
      scanFolder et root files (rs, ws) = (rs, ws) := by
  intro files
  induction files with
  | nil => intro rs ws; simp [scanFolder]
  | cons f fs ih =>
    intro rs ws
    simp only [scanFolder]
    rw [if_neg (by simp [hr]), if_neg (by simp [hw]), ih]

theorem scanGo_spec (et : String → String) :
    ∀ (walk : List (String × List String)) (rs ws : List SE),
      scanGo et walk (rs, ws) =
        (rs ++ walk.flatMap (readingOf et), ws ++ walk.flatMap (writingOf et)) := by
  intro walk
  induction walk with
  | nil => intro rs ws; simp [scanGo]
  | cons p rest ih =>
    intro rs ws
    obtain ⟨root, files⟩ := p
    simp only [scanGo, List.flatMap_cons]
    by_cases hr : containsSub "reading".data (lowerStr root).data = true
    · rw [scanFolder_reading et root hr, ih]
      simp [readingOf, writingOf, hr, eligibleEntries]
    · rw [Bool.not_eq_true] at hr
      by_cases hw : containsSub "writing".data (lowerStr root).data = true
      · rw [scanFolder_writing et root hr hw, ih]
        simp [readingOf, writingOf, hr, hw, eligibleEntries]
      · rw [Bool.not_eq_true] at hw
        rw [scanFolder_skip et root hr hw, ih]
        simp [readingOf, writingOf, hr, hw]

/-- C3 counterexample: an eligible `.pdf` file in a directory whose path
contains neither category keyword is omitted from the scan results
entirely — both result lists are empty — instead of being kept with an
`Unknown` category as the claim states. -/
theorem C3_cex_no_keyword_file_dropped :
    scanPdfs (fun _ => "T") [("data/math", ["a010101.pdf"])] = (([] : List SE), ([] : List SE)) := by
  rfl

/-- C3 amended: each eligible file (name ending in `.pdf`, case-insensitive)
of a walked directory produces exactly one descriptor in traversal order,
placed in the Reading results when the lower-cased directory path contains
`"reading"`, else in the Writing results when it contains `"writing"`;
a file whose directory matches neither keyword is omitted from the results
(there is no `Unknown` category in the merger's scan). -/
theorem C3_scan_routes_or_drops (et : String → String) (walk : List (String × List String)) :
    scanPdfs et walk = (walk.flatMap (readingOf et), walk.flatMap (writingOf et)) := by
  unfold scanPdfs
  rw [scanGo_spec]
  simp

/-- C10: a directory path whose lower-cased form contains both `"reading"`
and `"writing"` is classified Reading in both programs: `get_skill_type`
returns `"Reading"`, and the merger's scan appends every file of that
directory to the reading accumulator, leaving the writing accumulator
untouched. -/
theorem C10_reading_tested_first (p : String)
    (hr : containsSub "reading".data (lowerStr p).data = true)
    (_hw : containsSub "writing".data (lowerStr p).data = true) :
    PDFProcessor.get_skill_type p = "Reading" ∧
    ∀ (et : String → String) (files : List String) (rs ws : List SE),
      scanFolder et p files (rs, ws) = (rs ++ files.map (mkSE et p), ws) := by
  refine ⟨?_, fun et files rs ws => scanFolder_reading et p hr files rs ws⟩
  unfold PDFProcessor.get_skill_type
  rw [if_pos hr]

/-- Witness for C10 at a concrete path containing both keywords. -/
theorem C10_reading_tested_first_witness :
    PDFProcessor.get_skill_type "data/Reading_Writing" = "Reading" ∧
    scanFolder (fun _ => "T") "data/Reading_Writing" ["a.pdf"] ([], []) =
      ([("data/Reading_Writing/a.pdf", "T", "General Year")], []) := by
  have h := C10_reading_tested_first "data/Reading_Writing" (by decide) (by decide)
  refine ⟨h.1, ?_⟩
  rw [h.2 (fun _ => "T") ["a.pdf"] [] []]
  rfl

theorem charListLe_refl : ∀ (l : List Char), charListLe l l = true := by
  intro l
  induction l with
  | nil => rfl
  | cons c cs ih =>
    simp only [charListLe]
    rw [if_neg (by omega), if_neg (by omega)]
    exact ih

theorem charListLe_total : ∀ (a b : List Char),
    charListLe a b = true ∨ charListLe b a = true := by
  intro a
  induction a with
  | nil => intro b; left; rfl
  | cons x as ih =>
    intro b
    cases b with
    | nil => right; rfl
    | cons y bs =>
      simp only [charListLe]
      rcases Nat.lt_trichotomy x.toNat y.toNat with h | h | h
      · left
        rw [if_pos h]
      · rcases ih bs with h2 | h2
        · left
          rw [if_neg (by omega), if_neg (by omega)]
          exact h2
        · right
          rw [if_neg (by omega), if_neg (by omega)]
          exact h2
      · right
        rw [if_pos h]

theorem charListLe_trans : ∀ (a b c : List Char),
    charListLe a b = true → charListLe b c = true → charListLe a c = true := by
  intro a
  induction a with
  | nil => intro b c h1 h2; rfl
  | cons x as ih =>
    intro b c h1 h2
    cases b with
    | nil => simp [charListLe] at h1
    | cons y bs =>
      cases c with
      | nil => simp [charListLe] at h2
      | cons z cs =>
        simp only [charListLe] at h1 h2 ⊢
        split at h1
        · split at h2
          · rw [if_pos (by omega)]
          · split at h2
            · exact absurd h2 (by simp)
            · rw [if_pos (by omega)]
        · split at h1
          · exact absurd h1 (by simp)
          · split at h2
            · rw [if_pos (by omega)]
            · split at h2
              · exact absurd h2 (by simp)
              · rw [if_neg (by omega), if_neg (by omega)]
                exact ih bs cs h1 h2

/-- C5 counterexample: with one document of sub-class `"Year 3"` scanned
before one of sub-class `"Unknown Year"`, the merger's sort puts
`"Unknown Year"` FIRST (plain lexicographic string order: `'U' < 'Y'`),
not after the parsed year as the claim states. -/
theorem C5_cex_unknown_sorts_first :
    (sortedDocs [⟨"a", "t", "Year 3", some 1⟩, ⟨"b", "u", "Unknown Year", some 1⟩]).map
        Doc.year = ["Unknown Year", "Year 3"] ∧
    (sortedDocs [⟨"a", "t", "Year 3", some 1⟩, ⟨"b", "u", "Unknown Year", some 1⟩]).map
        Doc.year ≠ ["Year 3", "Unknown Year"] := by
  constructor
  · rfl
  · decide

/-- C5 amended: the merger sorts the scanned documents by the plain
lexicographic order of the sub-class string — there is no year-parsing
comparator, so `"Unknown Year"` (and `"General Year"`) sort before every
`"Year n"` label, not after — and the sort is stable: two documents with
equal sub-class keep their scan order, and the result is a permutation of
the input. -/
theorem C5_lexicographic_stable_sort (docs : List Doc) :
    (sortedDocs docs).Sorted (fun a b => pyStrLe a.year b.year = true) ∧
    (∀ a b : Doc, a.year = b.year → List.Sublist [a, b] docs →
      List.Sublist [a, b] (sortedDocs docs)) ∧
    List.Perm (sortedDocs docs) docs := by
  refine ⟨?_, ?_, List.perm_insertionSort _ docs⟩
  · haveI : IsTotal Doc (fun a b => pyStrLe a.year b.year = true) :=
      ⟨fun a b => charListLe_total a.year.data b.year.data⟩
    haveI : IsTrans Doc (fun a b => pyStrLe a.year b.year = true) :=
      ⟨fun a b c => charListLe_trans a.year.data b.year.data c.year.data⟩
    exact List.sorted_insertionSort _ docs
  · intro a b hey hsl
    refine List.pair_sublist_insertionSort ?_ hsl
    show pyStrLe a.year b.year = true
    rw [hey]
    exact charListLe_refl b.year.data

/-- Witness for C5 at two concrete documents with equal sub-class. -/
theorem C5_lexicographic_stable_sort_witness :
    List.Sublist [(⟨"p1", "t", "Year 1", some 1⟩ : Doc), ⟨"p2", "u", "Year 1", some 1⟩]
      (sortedDocs [⟨"p1", "t", "Year 1", some 1⟩, ⟨"p2", "u", "Year 1", some 1⟩]) :=
  (C5_lexicographic_stable_sort
      [⟨"p1", "t", "Year 1", some 1⟩, ⟨"p2", "u", "Year 1", some 1⟩]).2.1
    ⟨"p1", "t", "Year 1", some 1⟩ ⟨"p2", "u", "Year 1", some 1⟩ rfl (List.Sublist.refl _)

theorem perm_all {α : Type} {l m : List α} (p : α → Bool) (h : List.Perm l m) :
    l.all p = m.all p := by
  rw [Bool.eq_iff_iff, List.all_eq_true, List.all_eq_true]
  exact ⟨fun hx x hm => hx x (h.mem_iff.mpr hm), fun hx x hm => hx x (h.mem_iff.mp hm)⟩

theorem stampContentE_isOk (cp : Nat) (ds : List Doc) :
    isOkE (stampContentE cp ds) = ds.all (fun d => d.pages.isSome) := by
  induction ds generalizing cp with
  | nil => rfl
  | cons d rest ih =>
    simp only [stampContentE, List.all_cons]
    cases hp : d.pages with
    | none => simp [isOkE, hp]
    | some n =>
      cases hr : stampContentE (cp + n) rest with
      | error e =>
        have h2 := ih (cp + n)
        rw [hr] at h2
        simp only [isOkE] at h2
        simp [isOkE, hp, hr, ← h2]
      | ok cs =>
        have h2 := ih (cp + n)
        rw [hr] at h2
        simp only [isOkE] at h2
        simp [isOkE, hp, hr, ← h2]

/-- C4 counterexample: a category containing a fine two-page document and a
document whose pages fail to load does NOT skip the failing document and
continue — the merge aborts with the failure, producing no output
collection at all. -/
theorem C4_cex_failing_doc_aborts_build :
    mergeStamps String.length 0
        [⟨"p1", "t", "Year 1", some 2⟩, ⟨"p2", "u", "Year 1", none⟩]
      = Except.error "p2" ∧
    isOkE (mergeStamps String.length 0
        [⟨"p1", "t", "Year 1", some 2⟩, ⟨"p2", "u", "Year 1", none⟩]) = false := by
  exact ⟨rfl, rfl⟩

/-- C4 amended: there is no error handling in the merge loop — the category
build succeeds exactly when every document's pages load; a single failing
document propagates its exception out of the merge, so nothing is skipped
and no collection is emitted for that category. -/
theorem C4_no_skip_failure_is_fatal (w : String → Nat) (cw : Nat) (docs : List Doc) :
    isOkE (mergeStamps w cw docs) = docs.all (fun d => d.pages.isSome) := by
  have h2 := stampContentE_isOk 3 (sortedDocs docs)
  have hperm : List.Perm (sortedDocs docs) docs := List.perm_insertionSort _ docs
  rw [perm_all _ hperm] at h2
  rw [← h2]
  unfold mergeStamps
  cases hm : stampContentE 3 (sortedDocs docs) with
  | error e => rfl
  | ok cs => rfl

/-- C6 counterexample: a first page whose extracted text is empty gives the
empty title, not `"Untitled"`; and a text whose first line is empty but
second line is `"Lesson 1"` also gives the empty title — the extractor
takes the first line, not the first non-empty line. -/
theorem C6_cex_empty_title :
    extract_title_from_pdf (some [""]) = "" ∧
    extract_title_from_pdf (some [""]) ≠ "Untitled" ∧
    extract_title_from_pdf (some ["\nLesson 1"]) = "" := by
  refine ⟨rfl, by decide, rfl⟩

/-- C6 amended: title extraction returns the FIRST line of the first page's
extracted text, trimmed — possibly the empty string; the literal
`"Untitled"` is returned exactly when reading raises or the document has
no page, not when the extracted text is empty. -/
theorem C6_first_line_trimmed (t : String) (ts : List String) :
    extract_title_from_pdf none = "Untitled" ∧
    extract_title_from_pdf (some []) = "Untitled" ∧
    extract_title_from_pdf (some (t :: ts))
      = String.mk (trimChars ((splitOnChar '\n' t.data).headD "Untitled".data)) := by
  refine ⟨rfl, rfl, ?_⟩
  unfold extract_title_from_pdf
  dsimp only
  cases h : splitOnChar '\n' t.data with
  | nil => decide
  | cons line rest => rfl

/-- C7 counterexample: with a width capability measuring one unit per
character and limit 10, the header `"LPF-R-Y-tttt"` measures 12 > 10 — the
overflow condition holds — yet the title (4 ≤ 50 characters) is NOT
shortened and the header is drawn unmodified, still exceeding the limit. -/
theorem C7_cex_overflow_not_truncated :
    String.length (mkHeaderText "R" "Y" "tttt") > 10 ∧
    headerDrawn String.length 10 "R" "Y" "tttt" = mkHeaderText "R" "Y" "tttt" ∧
    String.length (headerDrawn String.length 10 "R" "Y" "tttt") > 10 := by
  refine ⟨by decide, rfl, by decide⟩

/-- C7 amended: a header that fits is drawn unmodified (truncation is never
applied unconditionally); when the measured header exceeds the limit the
title is replaced by its 50-character prefix plus `"..."` only if the title
itself exceeds 50 characters — otherwise the header is rebuilt unchanged —
and the rebuilt header is not re-measured, so it is not guaranteed to fit. -/
theorem C7_truncation_only_on_overflow (w : String → Nat) (limit : Nat)
    (skill year title : String) :
    (w (mkHeaderText skill year title) ≤ limit →
      headerDrawn w limit skill year title = mkHeaderText skill year title) ∧
    (w (mkHeaderText skill year title) > limit → title.length ≤ 50 →
      headerDrawn w limit skill year title = mkHeaderText skill year title) ∧
    (w (mkHeaderText skill year title) > limit → title.length > 50 →
      headerDrawn w limit skill year title
        = mkHeaderText skill year (title.take 50 ++ "...")) := by
  simp only [headerDrawn]
  refine ⟨?_, ?_, ?_⟩
  · intro h
    rw [if_neg (by omega)]
  · intro h1 h2
    rw [if_pos h1, if_neg (by omega)]
  · intro h1 h2
    rw [if_pos h1, if_pos h2]

/-- Witness for C7 at a concrete overflowing 60-character title. -/
theorem C7_truncation_only_on_overflow_witness :
    String.length
        (mkHeaderText "R" "Y" "tttttttttttttttttttttttttttttttttttttttttttttttttttttttttttt") > 10 ∧
    headerDrawn String.length 10 "R" "Y"
        "tttttttttttttttttttttttttttttttttttttttttttttttttttttttttttt"
      = mkHeaderText "R" "Y"
          ("tttttttttttttttttttttttttttttttttttttttttttttttttttttttttttt".take 50 ++ "...") := by
  refine ⟨by decide, ?_⟩
  exact (C7_truncation_only_on_overflow String.length 10 "R" "Y"
    "tttttttttttttttttttttttttttttttttttttttttttttttttttttttttttt").2.2 (by decide) (by decide)

theorem findSixDigits_eq_none (l : List Char) :
    findSixDigits l = none ↔ hasSixDigitRun l = false := by
  induction l with
  | nil => simp [findSixDigits, hasSixDigitRun]
  | cons c rest ih =>
    simp only [findSixDigits, hasSixDigitRun]
    cases h : sixDigitsAt (c :: rest) with
    | some window => simp [h]
    | none => simp [h, ih]

/-- C2 counterexample: for a filename with no six-digit run the merger's
`get_year_level` returns `"General Year"`, not the `"Unknown Year"` the
claim states. -/
theorem C2_cex_general_year :
    get_year_level "abc.pdf" = "General Year" ∧
    get_year_level "abc.pdf" ≠ "Unknown Year" := by
  exact ⟨rfl, by decide⟩

/-- C2 amended: on the leftmost six-digit run of the filename both parsers
agree — first two digits `n` in `1..7` give `"Year n"`, out of range gives
`"Unknown Year"` — but with no six-digit run the two programs differ:
`PDFProcessor.get_year_level` returns `"Unknown Year"` while the merger's
`get_year_level` returns `"General Year"`. -/
theorem C2_year_parsing (f : String) :
    (hasSixDigitRun f.data = false →
      get_year_level f = "General Year" ∧
      PDFProcessor.get_year_level f = "Unknown Year") ∧
    (∀ ds, findSixDigits f.data = some ds →
      (1 ≤ digitsVal (ds.take 2) ∧ digitsVal (ds.take 2) ≤ 7 →
        get_year_level f = "Year " ++ toString (digitsVal (ds.take 2)) ∧
        PDFProcessor.get_year_level f = "Year " ++ toString (digitsVal (ds.take 2))) ∧
      (¬(1 ≤ digitsVal (ds.take 2) ∧ digitsVal (ds.take 2) ≤ 7) →
        get_year_level f = "Unknown Year" ∧
        PDFProcessor.get_year_level f = "Unknown Year")) := by
  constructor
  · intro h
    have hn : findSixDigits f.data = none := (findSixDigits_eq_none f.data).mpr h
    unfold get_year_level PDFProcessor.get_year_level
    rw [hn]
    exact ⟨rfl, rfl⟩
  · intro ds hds
    unfold get_year_level PDFProcessor.get_year_level
    rw [hds]
    dsimp only
    constructor
    · intro hin
      rw [if_pos hin]
      exact ⟨rfl, rfl⟩
    · intro hout
      rw [if_neg hout]
      exact ⟨rfl, rfl⟩

/-- Witness for C2 at the specification's own example filename. -/
theorem C2_year_parsing_witness :
    findSixDigits "041203.pdf".data = some ['0', '4', '1', '2', '0', '3'] ∧
    get_year_level "041203.pdf" = "Year 4" ∧
    PDFProcessor.get_year_level "041203.pdf" = "Year 4" := by
  have h := ((C2_year_parsing "041203.pdf").2 ['0', '4', '1', '2', '0', '3'] (by decide)).1
    (by decide)
  refine ⟨by decide, ?_, ?_⟩
  · rw [h.1]
    decide
  · rw [h.2]
    decide

/-- C1: evaluation of the merge at a category whose TOC spans two pages:
the collection's physical pages carry the stamps `1, 2, 3, 3, 4` — the
first content page (physical page 4) is stamped `3`, duplicating the stamp
of TOC page 2, because `current_page` is incremented only once after the
whole TOC is appended.  The claim (stamp on page `i` equals `i`, including
multi-page TOCs) fails on every page after the TOC. -/
theorem C1_stamp_mismatch_after_multipage_toc :
    mergeStamps String.length 0
        [⟨"p1", "a a a a a a a a a a a a a a a a a a a a a", "Year 1", some 1⟩,
         ⟨"p2", "b b b b", "Year 1", some 1⟩]
      = Except.ok [some 1, some 2, some 3, some 3, some 4] ∧
    ((mergeStamps String.length 0
        [⟨"p1", "a a a a a a a a a a a a a a a a a a a a a", "Year 1", some 1⟩,
         ⟨"p2", "b b b b", "Year 1", some 1⟩]).toOption.getD []).getD 3 none = some 3 := by
  exact ⟨rfl, rfl⟩

/-- Witness for C8 at a concrete entry and capability: the single-word line
`["hello"]` produced by the wrap either fits in width 3 or is a lone word. -/
theorem C8_wrap_lines_fit_and_lossless_witness :
    (["hello"] ∈ wrapWords String.length 3 "1. hello - Year 1") ∧
    (String.length (joinWords ["hello"]) ≤ 3 ∨ (["hello"] : List String).length = 1) := by
  refine ⟨by decide, ?_⟩
  exact (C8_wrap_lines_fit_and_lossless String.length 3 "1. hello - Year 1").1
    ["hello"] (by decide)

/-- Witness for C9 at a concrete one-entry list: the single emitted TOC page
holds entry 0. -/
theorem C9_toc_layout_partition_witness :
    (((0 : Nat), (1 : Nat)) ∈ tocBreaks String.length 0 [("t", "Year 1")]) ∧
    (0 : Nat) < 1 := by
  refine ⟨by decide, ?_⟩
  exact (C9_toc_layout_partition String.length 0 [("t", "Year 1")]).1 (0, 1) (by decide)

end PDFAugment
